import Mathlib

/-!
Verification of the render-and-timing engine of the `afk` terminal countdown
(`src/main.rs`), against its natural-language specification.

The Rust source is shallowly embedded: machine integers (`i128`) become `Int`
(with a separate checked model for overflow questions), timestamps become
natural-number milliseconds, terminal output becomes an explicit list of
queued paint operations, and the fallible renderer / terminal writes become
environment inputs to an `Except`-valued loop step.
-/

namespace Afk

/-- Events delivered over the mpsc channel (`enum Event` in `main.rs`). -/
inductive Event where
  | Tick
  | Quit
deriving DecidableEq

/-- The tick transition of the countdown, from `main.rs` lines 306-315:
on `Event::Tick`, `if total_seconds > 0 || config.allow_negative { total_seconds -= 1 }`. -/
def applyTick (allow_negative : Bool) (total_seconds : Int) : Int :=
  if total_seconds > 0 || allow_negative then total_seconds - 1 else total_seconds

/-- The guard at `main.rs` line 279 deciding whether the loop iteration enters
blink evaluation: `total_seconds == 0 && !config.allow_negative`. -/
def blinkGuard (allow_negative : Bool) (total_seconds : Int) : Bool :=
  total_seconds == 0 && !allow_negative

/-- The blink-relevant part of `AfkConfig`: `is_blinking` and the instant of
the last toggle (`blink_timer`), as natural-number milliseconds. -/
structure BlinkState where
  is_blinking : Bool
  blink_timer : Nat
deriving DecidableEq

/-- `AfkConfig::flip_blinker` (`main.rs` lines 96-101): if the time elapsed
since `blink_timer` is at least `blink_rate` milliseconds, negate
`is_blinking` and reset `blink_timer` to the current instant; otherwise leave
the state unchanged.  `now` is the current instant in milliseconds; the
elapsed time is `now - blink_timer` (Rust `Instant` is monotone, so
`blink_timer ≤ now` in every real execution). -/
def flip_blinker (blink_rate : Nat) (now : Nat) (st : BlinkState) : BlinkState :=
  if blink_rate ≤ now - st.blink_timer then ⟨!st.is_blinking, now⟩ else st

/-- Decimal digit characters of `n`, most significant first, fuel-indexed so
that the recursion is structural.  Models how Rust's `format!` renders a
non-negative integer. -/
def decChars (fuel n : Nat) : List Char :=
  match fuel with
  | 0 => []
  | fuel + 1 =>
    if n < 10 then [Nat.digitChar n]
    else decChars fuel (n / 10) ++ [Nat.digitChar (n % 10)]

/-- Decimal rendering of a natural number (`n + 1` is always enough fuel). -/
def natDec (n : Nat) : String :=
  ⟨decChars (n + 1) n⟩

/-- Left-pad a string to width 2 with `'0'`: Rust's `{:0>2}` format. -/
def padLeft2 (s : String) : String :=
  if s.length < 2 then ⟨List.replicate (2 - s.length) '0'⟩ ++ s else s

/-- Decimal rendering of an integer: sign, then the digits of the absolute
value (Rust `{}` on `i128`). -/
def intDec (n : Int) : String :=
  (if n < 0 then "-" else "") ++ natDec n.natAbs

/-- Rust `format!("{:0>2}", n)` on an `i128`. -/
def pad2 (n : Int) : String :=
  padLeft2 (intDec n)

/-- `format_time` (`main.rs` lines 47-63), with `i128` embedded as `Int`.
After the conditional negation `total_sec` is non-negative, where Lean's
integer division agrees with Rust's truncating `i128` division. -/
def format_time (total_sec : Int) (show_zeroes : Bool) : String :=
  let is_less_than_zero := total_sec < 0
  let t := if is_less_than_zero then total_sec * -1 else total_sec
  let hours := t / 60 / 60
  let minutes := t / 60 - hours * 60
  let seconds := t - minutes * 60 - hours * 60 * 60
  (if is_less_than_zero then "-" else "") ++
    (if hours == 0 && !show_zeroes then "" else pad2 hours ++ ":") ++
      (if hours == 0 && minutes == 0 && !show_zeroes then "" else pad2 minutes ++ ":") ++
        pad2 seconds

/-- The spec's reference decomposition of a magnitude `a` (in seconds) into
the displayed groups: hours `a / 3600`, minutes `a / 60 % 60`, seconds
`a % 60`; seconds always zero-padded to 2 digits; the minutes group (with
trailing `:`) omitted exactly when hours and minutes are both zero and
`show_zeroes` is false; the hours group (with trailing `:`) omitted exactly
when hours is zero and `show_zeroes` is false. -/
def time_groups (a : Nat) (show_zeroes : Bool) : String :=
  (if a / 3600 == 0 && !show_zeroes then "" else padLeft2 (natDec (a / 3600)) ++ ":") ++
    (if a / 3600 == 0 && a / 60 % 60 == 0 && !show_zeroes then ""
      else padLeft2 (natDec (a / 60 % 60)) ++ ":") ++
      padLeft2 (natDec (a % 60))

/-- The spec's reference string for the display text: sign prefix `"-"` iff
negative, then the groups of the absolute value. -/
def format_time_spec (remaining : Int) (show_zeroes : Bool) : String :=
  (if remaining < 0 then "-" else "") ++ time_groups remaining.natAbs show_zeroes

/-- The smallest `i128` value, `-(2^127)` written out. -/
def i128min : Int := -170141183460469231731687303715884105728

/-- The largest `i128` value, `2^127 - 1` written out. -/
def i128max : Int := 170141183460469231731687303715884105727

/-- Checked `i128` arithmetic step: the result of an operation survives iff
it lies in the representable range (Rust checked arithmetic panics outside). -/
def chk128 (x : Int) : Option Int :=
  if i128min ≤ x ∧ x ≤ i128max then some x else none

/-- `format_time` with every arithmetic step of the source checked against
the `i128` range, in source order (`main.rs` lines 47-63): the conditional
negation `total_sec * -1`, then `hours = t / 60 / 60`,
`minutes = t / 60 - hours * 60`, `seconds = t - minutes * 60 - hours * 60 * 60`.
`none` means the Rust function would overflow (panic under checked
arithmetic).  Divisions act on the non-negative `t`, where Lean's division
agrees with Rust's truncating `i128` division. -/
def format_time_i128 (total_sec : Int) (show_zeroes : Bool) : Option String :=
  (if total_sec < 0 then chk128 (total_sec * -1) else some total_sec).bind fun t =>
    (chk128 (t / 60)).bind fun d1 =>
      (chk128 (d1 / 60)).bind fun hours =>
        (chk128 (hours * 60)).bind fun h60 =>
          (chk128 (t / 60 - h60)).bind fun minutes =>
            (chk128 (minutes * 60)).bind fun m60 =>
              (chk128 (h60 * 60)).bind fun h3600 =>
                (chk128 (t - m60)).bind fun s1 =>
                  (chk128 (s1 - h3600)).bind fun seconds =>
                    some ((if total_sec < 0 then "-" else "") ++
                      (if hours == 0 && !show_zeroes then "" else pad2 hours ++ ":") ++
                        (if hours == 0 && minutes == 0 && !show_zeroes then ""
                          else pad2 minutes ++ ":") ++
                          pad2 seconds)

/-- One queued terminal command: `stdout.queue(MoveTo(col, row))` or
`stdout.queue(Print(text))`.  Styling (`paint.paint(line)`) is opaque and
dropped: the printed text is recorded. -/
inductive PaintOp where
  | moveTo (col row : Nat)
  | print (text : String)
deriving DecidableEq

/-- A run of `n` space characters: `" ".repeat(n)`. -/
def spaces (n : Nat) : String :=
  ⟨List.replicate n ' '⟩

/-- The erase pass of the diff painter (`main.rs` lines 291-295): for each
line `i` of the previous frame, move to `(0, origin + i)` and print a run of
spaces as long as that previous line. -/
def erase_ops (origin : Nat) : List String → List PaintOp
  | [] => []
  | line :: rest =>
    PaintOp.moveTo 0 origin :: PaintOp.print (spaces line.length) :: erase_ops (origin + 1) rest

/-- The write pass of the diff painter (`main.rs` lines 297-300): for each
line `i` of the current frame — blank or not — move to `(0, origin + i)` and
print the (styled) line. -/
def write_ops (origin : Nat) : List String → List PaintOp
  | [] => []
  | line :: rest =>
    PaintOp.moveTo 0 origin :: PaintOp.print line :: write_ops (origin + 1) rest

/-- One diff paint (`main.rs` lines 291-302): the queued operations (erase
pass over the previous frame, then write pass of the current frame), and the
new value of `old_lines` (the current frame, `old_lines = lines`). -/
def diff_paint (origin : Nat) (old_lines current_lines : List String) :
    List PaintOp × List String :=
  (erase_ops origin old_lines ++ write_ops origin current_lines, current_lines)

/-- A line that is blank / whitespace-only. -/
def isBlankLine (s : String) : Bool :=
  s.data.all Char.isWhitespace

/-- Modelled from the spec: the write pass the specification describes for
the Diff Painter, which skips blank/whitespace-only lines and shifts each
later real line upward by the accumulated count of skipped blank lines.
`i` is the index in the current frame, `skip` the accumulated blank count.
This definition exists only to be compared with `write_ops`, the pass the
source actually performs. -/
def write_ops_skip_blank (origin : Nat) (i skip : Nat) : List String → List PaintOp
  | [] => []
  | line :: rest =>
    if isBlankLine line then write_ops_skip_blank origin (i + 1) (skip + 1) rest
    else
      PaintOp.moveTo 0 (origin + i - skip) :: PaintOp.print line ::
        write_ops_skip_blank origin (i + 1) skip rest

/-- Split a character list at `'\n'` into raw lines; a final element `[]`
corresponds to a trailing newline (or an empty input). -/
def linesAux : List Char → List (List Char)
  | [] => [[]]
  | c :: cs =>
    match linesAux cs with
    | [] => [[]]
    | l :: ls => if c = '\n' then [] :: l :: ls else (c :: l) :: ls

/-- Drop one trailing carriage return, as Rust's `str::lines` does. -/
def stripCr (l : List Char) : List Char :=
  if l.getLast? = some '\r' then l.dropLast else l

/-- Rust's `txt.lines()` (`main.rs` line 289): split on `'\n'`, no entry for
a trailing line terminator, each line stripped of one trailing `'\r'`. -/
def rustLines (s : String) : List String :=
  let parts := linesAux s.data
  (if parts.getLast? = some [] then parts.dropLast else parts).map fun l => ⟨stripCr l⟩

/-- `let offset_y = 3;` (`main.rs` line 270): the fixed row at which the
numeral block is painted every iteration. -/
def offset_y : Nat := 3

/-- The startup caption paint (`main.rs` lines 271-272): one cursor move to
`(2, offset_y - 1)` and one print of the caption words, before the loop. -/
def caption_startup_ops (words : String) : List PaintOp :=
  [PaintOp.moveTo 2 (offset_y - 1), PaintOp.print words]

/-- Modelled from the spec: the origin row the specification prescribes for
the numeral block — the caption's compacted (non-blank) line count, with a
minimum of 1.  This definition exists only to be compared with `offset_y`,
the constant the source actually uses. -/
def origin_row_spec (caption : String) : Nat :=
  max 1 ((rustLines caption).filter (fun l => !(isBlankLine l))).length

/-- What the Font Renderer stage produces in one iteration, as seen by the
loop: `rerr` when `renderer.render(..)` returns `Err`, otherwise the byte
buffer, already abstracted by its `String::from_utf8` decoding (`none` when
the bytes are not valid UTF-8). -/
inductive RenderOutcome where
  | rerr
  | bytes (utf8 : Option String)
deriving DecidableEq

/-- The mutable state of the application loop: `total_seconds` and
`old_lines` from `main`, plus the blink fields of `config` that the loop
mutates. -/
structure LoopState where
  total_seconds : Int
  is_blinking : Bool
  blink_timer : Nat
  old_lines : List String
deriving DecidableEq

/-- The environment of one loop iteration: the current instant (ms), the
renderer outcome (consulted only when not blinking), whether a queued
terminal write / flush of this iteration fails, and the `try_recv` result. -/
structure Iter where
  now : Nat
  render : RenderOutcome
  write_fails : Bool
  ev : Option Event
deriving DecidableEq

/-- One iteration of the loop body (`main.rs` lines 274-317), up to the
sleep.  Returns `Except.error ()` when a `?` inside the body propagates an
error out of `main` (renderer failure at line 285, or a failed terminal
write/flush at lines 292-303); otherwise the new state, whether the loop
`break`s (a `Quit` event), and the paint operations queued this iteration.
When `is_blinking` holds, the renderer is not invoked and the buffer stays
empty, which decodes to `""`; a successful decode always reaches the
`flush`, so `write_fails` applies to it. -/
def stepIter (allow_negative : Bool) (blink_rate : Nat) (origin : Nat)
    (st : LoopState) (inp : Iter) : Except Unit (LoopState × Bool × List PaintOp) :=
  let st1 :=
    if blinkGuard allow_negative st.total_seconds then
      let b := flip_blinker blink_rate inp.now ⟨st.is_blinking, st.blink_timer⟩
      { st with is_blinking := b.is_blinking, blink_timer := b.blink_timer }
    else st
  let paintStage : Except Unit (LoopState × List PaintOp) :=
    if st1.is_blinking then
      if inp.write_fails then Except.error ()
      else
        Except.ok ({ st1 with old_lines := (diff_paint origin st1.old_lines (rustLines "")).2 },
          (diff_paint origin st1.old_lines (rustLines "")).1)
    else
      match inp.render with
      | RenderOutcome.rerr => Except.error ()
      | RenderOutcome.bytes none => Except.ok (st1, [])
      | RenderOutcome.bytes (some txt) =>
        if inp.write_fails then Except.error ()
        else
          Except.ok ({ st1 with old_lines := (diff_paint origin st1.old_lines (rustLines txt)).2 },
            (diff_paint origin st1.old_lines (rustLines txt)).1)
  match paintStage with
  | Except.error _ => Except.error ()
  | Except.ok (st2, ops) =>
    match inp.ev with
    | some Event.Tick =>
      Except.ok ({ st2 with total_seconds := applyTick allow_negative st2.total_seconds },
        false, ops)
    | some Event.Quit => Except.ok (st2, true, ops)
    | none => Except.ok (st2, false, ops)

/-- How a finite run of the loop ends: still running after consuming the
given iteration inputs, exited through `break` on `Quit` (after which
`cleanup(&mut stdout)` at `main.rs` line 320 executes), or exited early
through a `?` error return (which never reaches line 320). -/
inductive LoopOutcome where
  | running (st : LoopState)
  | exitedQuit
  | exitedErr
deriving DecidableEq

/-- Run the loop over a finite list of iteration environments. -/
def runIters (allow_negative : Bool) (blink_rate : Nat) (origin : Nat) :
    LoopState → List Iter → LoopOutcome
  | st, [] => LoopOutcome.running st
  | st, inp :: rest =>
    match stepIter allow_negative blink_rate origin st inp with
    | Except.error _ => LoopOutcome.exitedErr
    | Except.ok (st1, brk, _) =>
      if brk then LoopOutcome.exitedQuit else runIters allow_negative blink_rate origin st1 rest

/-- Whether the teardown `cleanup(&mut stdout)` (`main.rs` line 320) runs for
a finished run: it sits after the loop, so only the `break` path reaches it. -/
def cleanup_runs : LoopOutcome → Bool
  | LoopOutcome.exitedQuit => true
  | _ => false

section TickLemmas

lemma applyTick_pos (a : Bool) (s : Int) (h : 0 < s) : applyTick a s = s - 1 := by
  unfold applyTick
  have : (decide (s > 0) || a) = true := by simp [h]
  rw [if_pos this]

lemma applyTick_true (s : Int) : applyTick true s = s - 1 := by
  unfold applyTick
  simp

lemma applyTick_false_zero : applyTick false 0 = 0 := by decide

lemma applyTick_false_nonneg (s : Int) (h : 0 ≤ s) : 0 ≤ applyTick false s := by
  unfold applyTick
  split
  next hc => simp only [Bool.or_false, decide_eq_true_eq] at hc; omega
  next => exact h

lemma iterate_applyTick_false_nonneg (s : Int) (n : Nat) (h : 0 ≤ s) :
    0 ≤ (applyTick false)^[n] s := by
  induction n generalizing s with
  | zero => simpa using h
  | succ k ih =>
    rw [Function.iterate_succ_apply]
    exact ih _ (applyTick_false_nonneg s h)

lemma iterate_applyTick_false_zero (n : Nat) : (applyTick false)^[n] 0 = 0 := by
  induction n with
  | zero => rfl
  | succ k ih => rw [Function.iterate_succ_apply, applyTick_false_zero, ih]

lemma iterate_applyTick_true_zero (n : Nat) : (applyTick true)^[n] 0 = -(n : Int) := by
  induction n with
  | zero => rfl
  | succ k ih =>
    rw [Function.iterate_succ_apply', ih, applyTick_true]
    push_cast
    ring

end TickLemmas

/-- C1: on `Tick`, a positive `remaining_seconds` is decremented by 1; at 0
with `allow_negative` it is decremented below zero, with `(applyTick true)^[k] 0 = -k`
showing unbounded negative growth; at 0 without `allow_negative` it stays 0.
From `initial_seconds = 5` with `allow_negative = false`, 5 ticks reach 0 and
every subsequent tick leaves it at 0. -/
theorem tick_transition (a : Bool) (s : Int) :
    (0 < s → applyTick a s = s - 1) ∧
    (s = 0 → a = true → applyTick a s = s - 1) ∧
    (s = 0 → a = false → applyTick a s = 0) ∧
    (applyTick false)^[5] 5 = 0 ∧
    (∀ k, 5 ≤ k → (applyTick false)^[k] 5 = 0) ∧
    (∀ k : Nat, (applyTick true)^[k] 0 = -(k : Int)) := by
  refine ⟨fun h => applyTick_pos a s h, fun hs ha => ?_, fun hs ha => ?_, by decide, ?_, ?_⟩
  · subst hs ha; exact applyTick_true 0
  · subst hs ha; exact applyTick_false_zero
  · intro k hk
    obtain ⟨m, rfl⟩ : ∃ m, k = m + 5 := ⟨k - 5, by omega⟩
    rw [Function.iterate_add_apply]
    have h5 : (applyTick false)^[5] (5 : Int) = 0 := by decide
    rw [h5, iterate_applyTick_false_zero]
  · exact iterate_applyTick_true_zero

/-- Witness for C1: one tick from 3 with `allow_negative = false` yields 2. -/
theorem tick_transition_witness : applyTick false 3 = 3 - 1 :=
  (tick_transition false 3).1 (by decide)

/-- C6: starting from a non-negative `remaining_seconds` with
`allow_negative = false`, any number of ticks leaves `remaining_seconds`
non-negative, and whenever it is 0 the loop's blink guard holds, so the
iteration enters blink evaluation instead of decrementing further. -/
theorem nonneg_invariant (s : Int) (n : Nat) (h : 0 ≤ s) :
    0 ≤ (applyTick false)^[n] s ∧
    ((applyTick false)^[n] s = 0 → blinkGuard false ((applyTick false)^[n] s) = true) := by
  refine ⟨iterate_applyTick_false_nonneg s n h, fun h0 => ?_⟩
  rw [h0]
  decide

/-- Witness for C6: from 2, seven ticks stay non-negative (and end at 0,
where the blink guard holds). -/
theorem nonneg_invariant_witness :
    0 ≤ (applyTick false)^[7] 2 ∧ blinkGuard false ((applyTick false)^[7] 2) = true :=
  ⟨(nonneg_invariant 2 7 (by decide)).1, (nonneg_invariant 2 7 (by decide)).2 (by decide)⟩

/-- C7: `flip_blinker` negates `is_blinking` and resets the toggle instant
exactly when the elapsed time since the last toggle is at least
`blink_rate`, and leaves the state unchanged otherwise; hence once it
toggles at some instant, re-evaluating at any instant less than
`blink_rate` later changes nothing — the flag toggles exactly once. -/
theorem flip_blinker_toggle (rate now : Nat) (st : BlinkState) :
    (rate ≤ now - st.blink_timer → flip_blinker rate now st = ⟨!st.is_blinking, now⟩) ∧
    (now - st.blink_timer < rate → flip_blinker rate now st = st) ∧
    (rate ≤ now - st.blink_timer → ∀ t2, t2 - now < rate →
      flip_blinker rate t2 (flip_blinker rate now st) = flip_blinker rate now st) := by
  refine ⟨fun h => ?_, fun h => ?_, fun h t2 h2 => ?_⟩
  · unfold flip_blinker; rw [if_pos h]
  · unfold flip_blinker; rw [if_neg (by omega)]
  · have h1 : flip_blinker rate now st = ⟨!st.is_blinking, now⟩ := by
      unfold flip_blinker; rw [if_pos h]
    rw [h1]
    show flip_blinker rate t2 ⟨!st.is_blinking, now⟩ = _
    unfold flip_blinker
    rw [if_neg (by simpa using by omega)]

/-- Witness for C7: with `blink_rate = 500`, at elapsed 600 the flag flips
to `true` and the instant resets; re-evaluating 300 later changes nothing. -/
theorem flip_blinker_toggle_witness :
    flip_blinker 500 600 ⟨false, 0⟩ = ⟨true, 600⟩ ∧
    flip_blinker 500 900 (flip_blinker 500 600 ⟨false, 0⟩) = flip_blinker 500 600 ⟨false, 0⟩ :=
  ⟨(flip_blinker_toggle 500 600 ⟨false, 0⟩).1 (by decide),
    (flip_blinker_toggle 500 600 ⟨false, 0⟩).2.2 (by decide) 900 (by decide)⟩

section FormatLemmas

lemma digitChar_ne_dash {n : Nat} (h : n < 10) : Nat.digitChar n ≠ '-' := by
  interval_cases n <;> decide

lemma decChars_ne_dash (fuel : Nat) : ∀ n, ∀ c ∈ decChars fuel n, c ≠ '-' := by
  induction fuel with
  | zero => intro n c hc; simp [decChars] at hc
  | succ fuel ih =>
    intro n c hc
    unfold decChars at hc
    split at hc
    next h =>
      simp only [List.mem_singleton] at hc
      subst hc
      exact digitChar_ne_dash h
    next h =>
      rcases List.mem_append.1 hc with h1 | h1
      · exact ih _ c h1
      · simp only [List.mem_singleton] at h1
        subst h1
        exact digitChar_ne_dash (Nat.mod_lt _ (by omega))

lemma natDec_ne_dash (n : Nat) : ∀ c ∈ (natDec n).data, c ≠ '-' :=
  decChars_ne_dash (n + 1) n

lemma padLeft2_ne_dash (s : String) (hs : ∀ c ∈ s.data, c ≠ '-') :
    ∀ c ∈ (padLeft2 s).data, c ≠ '-' := by
  intro c hc
  unfold padLeft2 at hc
  split at hc
  · rw [String.data_append] at hc
    rcases List.mem_append.1 hc with h1 | h1
    · have := List.eq_of_mem_replicate h1
      subst this
      decide
    · exact hs c h1
  · exact hs c hc

lemma group_ne_dash (b : Bool) (m : Nat) :
    ∀ c ∈ (if b then ("" : String) else padLeft2 (natDec m) ++ ":").data, c ≠ '-' := by
  intro c hc
  split at hc
  · simp [String.data] at hc
  · rw [String.data_append] at hc
    rcases List.mem_append.1 hc with h1 | h1
    · exact padLeft2_ne_dash _ (natDec_ne_dash m) c h1
    · simp only [show (":" : String).data = [':'] from rfl, List.mem_singleton] at h1
      subst h1
      decide

lemma time_groups_ne_dash (a : Nat) (s : Bool) : ∀ c ∈ (time_groups a s).data, c ≠ '-' := by
  intro c hc
  unfold time_groups at hc
  rw [String.data_append, String.data_append] at hc
  rcases List.mem_append.1 hc with h1 | h1
  · rcases List.mem_append.1 h1 with h2 | h2
    · exact group_ne_dash _ _ c h2
    · exact group_ne_dash _ _ c h2
  · exact padLeft2_ne_dash _ (natDec_ne_dash _) c h1

lemma natCast_beq_zero (n : Nat) : (((n : Nat) : Int) == 0) = (n == 0) := by
  cases n <;> rfl

lemma pad2_natCast (n : Nat) : pad2 ((n : Nat) : Int) = padLeft2 (natDec n) := by
  unfold pad2 intDec
  rw [if_neg (by omega)]
  simp

lemma format_time_eq_spec (t : Int) (s : Bool) : format_time t s = format_time_spec t s := by
  simp only [format_time, format_time_spec, time_groups]
  set a := t.natAbs with ha
  have h1 : (if t < 0 then t * -1 else t) = (a : Int) := by
    split <;> omega
  have h2 : (a : Int) / 60 / 60 = ((a / 3600 : Nat) : Int) := by omega
  rw [h1, h2]
  have h3 : (a : Int) / 60 - ((a / 3600 : Nat) : Int) * 60 = ((a / 60 % 60 : Nat) : Int) := by
    omega
  rw [h3]
  have h4 : (a : Int) - ((a / 60 % 60 : Nat) : Int) * 60 - ((a / 3600 : Nat) : Int) * 60 * 60 =
      ((a % 60 : Nat) : Int) := by
    omega
  rw [h4]
  simp only [natCast_beq_zero, pad2_natCast, String.append_assoc]

end FormatLemmas

/-- C2: `format_time` returns exactly the spec's reference string — sign
prefix `"-"` iff negative, hours `abs / 3600`, minutes `abs / 60 % 60`,
seconds `abs % 60`, seconds always 2-zero-padded, the minutes group omitted
exactly when hours and minutes are both zero without `show_leading_zero_groups`,
the hours group omitted exactly when hours is zero without it.  Consequently
non-negative inputs render without `'-'`, and negative inputs render as `"-"`
followed by the groups of the absolute value. -/
theorem format_time_correct (r : Int) (s : Bool) :
    format_time r s = format_time_spec r s ∧
    (0 ≤ r → '-' ∉ (format_time r s).data) ∧
    (r < 0 → format_time r s = "-" ++ time_groups r.natAbs s) := by
  have heq : format_time r s = format_time_spec r s := format_time_eq_spec r s
  refine ⟨heq, fun h => ?_, fun h => ?_⟩
  · rw [heq]
    unfold format_time_spec
    rw [if_neg (by omega)]
    intro hc
    rw [String.data_append] at hc
    rcases List.mem_append.1 hc with h1 | h1
    · simp [String.data] at h1
    · exact time_groups_ne_dash r.natAbs s '-' h1 rfl
  · rw [heq]
    unfold format_time_spec
    rw [if_pos h]

/-- Witness for C2: `format_time (-75) false` is `"-"` followed by the groups
of 75 — concretely `"-01:15"` — and `format_time 45 false` has no `'-'`. -/
theorem format_time_correct_witness :
    format_time (-75) false = "-" ++ time_groups 75 false ∧
    format_time (-75) false = "-01:15" ∧
    '-' ∉ (format_time 45 false).data :=
  ⟨(format_time_correct (-75) false).2.2 (by decide), by decide,
    (format_time_correct 45 false).2.1 (by decide)⟩

section I128Lemmas

lemma chk128_some (x : Int) (h1 : -170141183460469231731687303715884105728 ≤ x)
    (h2 : x ≤ 170141183460469231731687303715884105727) : chk128 x = some x := by
  unfold chk128 i128min i128max
  exact if_pos ⟨h1, h2⟩

lemma chain_eval (pre : String) (s : Bool) (tv : Int) (h0 : 0 ≤ tv)
    (h2 : tv ≤ 170141183460469231731687303715884105727) :
    ((chk128 (tv / 60)).bind fun d1 =>
      (chk128 (d1 / 60)).bind fun hours =>
        (chk128 (hours * 60)).bind fun h60 =>
          (chk128 (tv / 60 - h60)).bind fun minutes =>
            (chk128 (minutes * 60)).bind fun m60 =>
              (chk128 (h60 * 60)).bind fun h3600 =>
                (chk128 (tv - m60)).bind fun s1 =>
                  (chk128 (s1 - h3600)).bind fun seconds =>
                    some (pre ++
                      (if hours == 0 && !s then "" else pad2 hours ++ ":") ++
                        (if hours == 0 && minutes == 0 && !s then ""
                          else pad2 minutes ++ ":") ++
                          pad2 seconds)) =
      some (pre ++
        (if tv / 60 / 60 == 0 && !s then "" else pad2 (tv / 60 / 60) ++ ":") ++
          (if tv / 60 / 60 == 0 && tv / 60 - tv / 60 / 60 * 60 == 0 && !s then ""
            else pad2 (tv / 60 - tv / 60 / 60 * 60) ++ ":") ++
            pad2 (tv - (tv / 60 - tv / 60 / 60 * 60) * 60 - tv / 60 / 60 * 60 * 60)) := by
  rw [chk128_some (tv / 60) (by omega) (by omega)]
  simp only [Option.some_bind]
  rw [chk128_some (tv / 60 / 60) (by omega) (by omega)]
  simp only [Option.some_bind]
  rw [chk128_some (tv / 60 / 60 * 60) (by omega) (by omega)]
  simp only [Option.some_bind]
  rw [chk128_some (tv / 60 - tv / 60 / 60 * 60) (by omega) (by omega)]
  simp only [Option.some_bind]
  rw [chk128_some ((tv / 60 - tv / 60 / 60 * 60) * 60) (by omega) (by omega)]
  simp only [Option.some_bind]
  rw [chk128_some (tv / 60 / 60 * 60 * 60) (by omega) (by omega)]
  simp only [Option.some_bind]
  rw [chk128_some (tv - (tv / 60 - tv / 60 / 60 * 60) * 60) (by omega) (by omega)]
  simp only [Option.some_bind]
  rw [chk128_some (tv - (tv / 60 - tv / 60 / 60 * 60) * 60 - tv / 60 / 60 * 60 * 60)
    (by omega) (by omega)]
  simp only [Option.some_bind]

end I128Lemmas

/-- C10: for every `i128` input strictly above `i128::MIN`, every arithmetic
step of `format_time` (the negation and the subsequent divisions,
multiplications and subtractions) stays in `i128` range and the checked
evaluation returns exactly `format_time`'s value; at `i128::MIN` itself the
negation `total_sec *= -1` leaves the range, so the checked evaluation
fails — `total_sec > i128::MIN` is the precondition for totality. -/
theorem format_time_i128_safe (t : Int) (s : Bool) (h1 : i128min ≤ t) (h2 : t ≤ i128max) :
    (i128min < t → format_time_i128 t s = some (format_time t s)) ∧
    (t = i128min → format_time_i128 t s = none) := by
  simp only [i128min, i128max] at h1 h2
  constructor
  · intro hlt
    simp only [i128min] at hlt
    unfold format_time_i128
    by_cases ht : t < 0
    · rw [if_pos ht, chk128_some (t * -1) (by omega) (by omega)]
      simp only [Option.some_bind]
      rw [chain_eval _ s (t * -1) (by omega) (by omega)]
      simp only [format_time]
      simp only [if_pos ht]
    · rw [if_neg ht]
      simp only [Option.some_bind]
      rw [chain_eval _ s t (by omega) (by omega)]
      simp only [format_time]
      simp only [if_neg ht]
  · intro ht
    subst ht
    unfold format_time_i128
    rw [if_pos (by decide)]
    have hnone : chk128 (i128min * -1) = none := by
      unfold chk128
      rw [if_neg (by decide)]
    rw [hnone]
    rfl

/-- Witness for C10: at `-75` (strictly above `i128::MIN`) the fully checked
evaluation succeeds with `format_time`'s result. -/
theorem format_time_i128_safe_witness :
    format_time_i128 (-75) true = some (format_time (-75) true) :=
  (format_time_i128_safe (-75) true (by decide) (by decide)).1 (by decide)

section PaintLemmas

lemma erase_ops_getElem (origin : Nat) (old : List String) (i : Nat) (h : i < old.length) :
    (erase_ops origin old)[2 * i]? = some (PaintOp.moveTo 0 (origin + i)) ∧
    (erase_ops origin old)[2 * i + 1]? =
      some (PaintOp.print (spaces (old.get ⟨i, h⟩).length)) := by
  induction old generalizing origin i with
  | nil => exact absurd h (by simp)
  | cons l rest ih =>
    cases i with
    | zero => exact ⟨by simp [erase_ops], by simp [erase_ops]⟩
    | succ j =>
      have hj : j < rest.length := by simpa using h
      have H := ih (origin + 1) j hj
      have e1 : 2 * (j + 1) = 2 * j + 1 + 1 := by ring
      have e2 : origin + (j + 1) = origin + 1 + j := by omega
      rw [e1, e2]
      exact ⟨by simpa [erase_ops] using H.1, by simpa [erase_ops] using H.2⟩

lemma write_ops_getElem (origin : Nat) (lines : List String) (i : Nat) (h : i < lines.length) :
    (write_ops origin lines)[2 * i]? = some (PaintOp.moveTo 0 (origin + i)) ∧
    (write_ops origin lines)[2 * i + 1]? = some (PaintOp.print (lines.get ⟨i, h⟩)) := by
  induction lines generalizing origin i with
  | nil => exact absurd h (by simp)
  | cons l rest ih =>
    cases i with
    | zero => exact ⟨by simp [write_ops], by simp [write_ops]⟩
    | succ j =>
      have hj : j < rest.length := by simpa using h
      have H := ih (origin + 1) j hj
      have e1 : 2 * (j + 1) = 2 * j + 1 + 1 := by ring
      have e2 : origin + (j + 1) = origin + 1 + j := by omega
      rw [e1, e2]
      exact ⟨by simpa [write_ops] using H.1, by simpa [write_ops] using H.2⟩

end PaintLemmas

/-- C3 counterexample: the source's write pass has no blank-line skip.  For
the current frame `["", "X"]` the spec's compacting pass (modelled by
`write_ops_skip_blank`) would write `"X"` at row `origin + 0` and never write
the blank line, but the code writes every line — the blank line at row 3 and
`"X"` at row 4. -/
theorem write_ops_no_blank_skip :
    write_ops 3 ["", "X"] =
      [PaintOp.moveTo 0 3, PaintOp.print "", PaintOp.moveTo 0 4, PaintOp.print "X"] ∧
    write_ops_skip_blank 3 0 0 ["", "X"] = [PaintOp.moveTo 0 3, PaintOp.print "X"] ∧
    write_ops 3 ["", "X"] ≠ write_ops_skip_blank 3 0 0 ["", "X"] := by
  decide

/-- C3 amended: the diff paint first erases each previous line `i` at row
`origin + i` with a run of spaces of that line's length, then writes every
line `i` of the current frame — including blank lines, with no blank-line
skip adjustment — at row `origin + i`, and replaces `previous_lines` with
`current_lines`.  For previous `["AAA", "B"]` and current `["X"]` it erases
row `origin` with 3 spaces and row `origin + 1` with 1 space, then writes
`"X"` at row `origin`. -/
theorem diff_paint_characterization (origin : Nat) (old_lines current_lines : List String) :
    (diff_paint origin old_lines current_lines).1 =
      erase_ops origin old_lines ++ write_ops origin current_lines ∧
    (diff_paint origin old_lines current_lines).2 = current_lines ∧
    (∀ i (h : i < old_lines.length),
      (erase_ops origin old_lines)[2 * i]? = some (PaintOp.moveTo 0 (origin + i)) ∧
      (erase_ops origin old_lines)[2 * i + 1]? =
        some (PaintOp.print (spaces (old_lines.get ⟨i, h⟩).length))) ∧
    (∀ i (h : i < current_lines.length),
      (write_ops origin current_lines)[2 * i]? = some (PaintOp.moveTo 0 (origin + i)) ∧
      (write_ops origin current_lines)[2 * i + 1]? =
        some (PaintOp.print (current_lines.get ⟨i, h⟩))) ∧
    diff_paint origin ["AAA", "B"] ["X"] =
      ([PaintOp.moveTo 0 origin, PaintOp.print "   ",
        PaintOp.moveTo 0 (origin + 1), PaintOp.print " ",
        PaintOp.moveTo 0 origin, PaintOp.print "X"], ["X"]) :=
  ⟨rfl, rfl, fun i h => erase_ops_getElem origin old_lines i h,
    fun i h => write_ops_getElem origin current_lines i h, rfl⟩

/-- Witness for C3 (amended): the indexed characterization evaluated at the
spec's scenario, previous `["AAA", "B"]`, current `["X"]`, origin 0. -/
theorem diff_paint_characterization_witness :
    (erase_ops 0 ["AAA", "B"])[2 * 1 + 1]? = some (PaintOp.print " ") ∧
    (write_ops 0 ["X"])[2 * 0]? = some (PaintOp.moveTo 0 0) :=
  ⟨((diff_paint_characterization 0 ["AAA", "B"] ["X"]).2.2.1 1 (by decide)).2,
    ((diff_paint_characterization 0 ["AAA", "B"] ["X"]).2.2.2.1 0 (by decide)).1⟩

/-- C8 counterexample: painting the same frame `["X"]` twice does emit an
erase operation — a run of one space, whose length is 1, not 0; the erase
run length derives from the previous line's length, which is not zero. -/
theorem repaint_erase_nonzero :
    (diff_paint 3 ["X"] ["X"]).1 =
      [PaintOp.moveTo 0 3, PaintOp.print " ", PaintOp.moveTo 0 3, PaintOp.print "X"] ∧
    (" " : String).length ≠ 0 := by
  decide

/-- C8 amended: repainting the very same frame still runs the erase pass,
and the erase run emitted for line `i` has exactly the length of that
(previous = current) line — zero only for an empty line, not in general. -/
theorem repaint_same_frame (origin : Nat) (lines : List String) (i : Nat)
    (h : i < lines.length) :
    (diff_paint origin lines lines).1 = erase_ops origin lines ++ write_ops origin lines ∧
    (erase_ops origin lines)[2 * i + 1]? =
      some (PaintOp.print (spaces (lines.get ⟨i, h⟩).length)) ∧
    (spaces (lines.get ⟨i, h⟩).length).length = (lines.get ⟨i, h⟩).length :=
  ⟨rfl, (erase_ops_getElem origin lines i h).2, by simp [spaces]⟩

/-- Witness for C8 (amended): repainting `["X"]` over itself emits at index 1
an erase print of one space — length 1, the length of `"X"`. -/
theorem repaint_same_frame_witness :
    (erase_ops 3 ["X"])[2 * 0 + 1]? = some (PaintOp.print " ") ∧
    (spaces ("X" : String).length).length = ("X" : String).length :=
  ⟨(repaint_same_frame 3 ["X"] 0 (by decide)).2.1,
    (repaint_same_frame 3 ["X"] 0 (by decide)).2.2⟩

/-- C9 counterexample: the numeral block's origin row is the constant
`offset_y = 3`, not the caption's compacted line count.  For the caption
`"hello"` the spec's rule (modelled by `origin_row_spec`) gives 1 ≠ 3; the
constant does not depend on the caption at all. -/
theorem origin_row_not_caption_height :
    origin_row_spec "hello" = 1 ∧ offset_y = 3 ∧ origin_row_spec "hello" ≠ offset_y := by
  decide

/-- C9 amended: at startup the caption is painted exactly once — a single
print of the caption words at column 2, row `offset_y - 1 = 2`, before the
loop — and the origin row of the numeral block is the constant
`offset_y = 3`, independent of the caption. -/
theorem caption_painted_once (words : String) :
    caption_startup_ops words = [PaintOp.moveTo 2 2, PaintOp.print words] ∧
    ((caption_startup_ops words).countP fun op =>
      match op with
      | PaintOp.print _ => true
      | _ => false) = 1 ∧
    offset_y = 3 :=
  ⟨rfl, rfl, rfl⟩

section LoopLemmas

lemma blinkGuard_of_ne (a : Bool) (s : Int) (hz : s ≠ 0) : blinkGuard a s = false := by
  unfold blinkGuard
  simp [hz]

lemma stepIter_skip (a : Bool) (rate origin : Nat) (st : LoopState) (inp : Iter)
    (hz : st.total_seconds ≠ 0) (hb : st.is_blinking = false)
    (hr : inp.render = RenderOutcome.bytes none) (he : inp.ev = none) :
    stepIter a rate origin st inp = Except.ok (st, false, []) := by
  unfold stepIter
  rw [blinkGuard_of_ne a _ hz]
  simp [hb, hr, he]

lemma stepIter_rerr (a : Bool) (rate origin : Nat) (st : LoopState) (inp : Iter)
    (hz : st.total_seconds ≠ 0) (hb : st.is_blinking = false)
    (hr : inp.render = RenderOutcome.rerr) :
    stepIter a rate origin st inp = Except.error () := by
  unfold stepIter
  rw [blinkGuard_of_ne a _ hz]
  simp [hb, hr]

lemma stepIter_quit (a : Bool) (rate origin : Nat) (st : LoopState) (inp : Iter)
    (he : inp.ev = some Event.Quit) (hw : inp.write_fails = false)
    (hr : inp.render ≠ RenderOutcome.rerr) :
    ∃ st2 ops, stepIter a rate origin st inp = Except.ok (st2, true, ops) := by
  unfold stepIter
  rcases hrv : inp.render with _ | u
  · exact absurd hrv hr
  · cases u with
    | none =>
      simp [he, hw, hrv]
      split
      · rename_i u heq
        split at heq <;> split at heq <;> simp at heq
      · exact ⟨_, _, rfl⟩
    | some txt =>
      simp [he, hw, hrv]
      split
      · rename_i u heq
        split at heq <;> split at heq <;> simp at heq
      · exact ⟨_, _, rfl⟩

end LoopLemmas

/-- C4 counterexample: when `renderer.render(..)` itself fails, the `?` at
`main.rs` line 285 propagates the error and the loop terminates — the claim
that a Font Renderer failure never terminates the loop is false.  Concretely,
from `total_seconds = 5`, not blinking, previous frame `["X"]`, a renderer
error makes the iteration return the error and the run end in `exitedErr`. -/
theorem render_error_terminates :
    stepIter false 500 3 ⟨5, false, 0, ["X"]⟩ ⟨0, RenderOutcome.rerr, false, none⟩ =
      Except.error () ∧
    runIters false 500 3 ⟨5, false, 0, ["X"]⟩ [⟨0, RenderOutcome.rerr, false, none⟩] =
      LoopOutcome.exitedErr :=
  ⟨rfl, rfl⟩

/-- C4 amended: only the non-UTF-8 case is recovered — if the renderer's
bytes fail UTF-8 decoding, the iteration issues no paint operation at all,
keeps `old_lines` (the last successfully painted frame) and the whole state
unchanged, and the loop goes on with the next iteration; if instead the
renderer returns an error, `?` propagates it and the loop terminates. -/
theorem render_failure_handling (a : Bool) (rate origin : Nat) (st : LoopState) (inp : Iter)
    (hz : st.total_seconds ≠ 0) (hb : st.is_blinking = false) :
    (inp.render = RenderOutcome.bytes none → inp.ev = none →
      stepIter a rate origin st inp = Except.ok (st, false, []) ∧
      ∀ rest, runIters a rate origin st (inp :: rest) = runIters a rate origin st rest) ∧
    (inp.render = RenderOutcome.rerr →
      stepIter a rate origin st inp = Except.error () ∧
      ∀ rest, runIters a rate origin st (inp :: rest) = LoopOutcome.exitedErr) := by
  constructor
  · intro hr he
    have hs := stepIter_skip a rate origin st inp hz hb hr he
    refine ⟨hs, fun rest => ?_⟩
    simp [runIters, hs]
  · intro hr
    have hs := stepIter_rerr a rate origin st inp hz hb hr
    refine ⟨hs, fun rest => ?_⟩
    simp [runIters, hs]

/-- Witness for C4 (amended): a non-UTF-8 iteration from `total_seconds = 5`
with previous frame `["X"]` returns the unchanged state, no break, and an
empty list of paint operations. -/
theorem render_failure_handling_witness :
    stepIter false 500 3 ⟨5, false, 0, ["X"]⟩ ⟨0, RenderOutcome.bytes none, false, none⟩ =
      Except.ok (⟨5, false, 0, ["X"]⟩, false, []) :=
  ((render_failure_handling false 500 3 ⟨5, false, 0, ["X"]⟩
    ⟨0, RenderOutcome.bytes none, false, none⟩ (by decide) rfl).1 rfl rfl).1

/-- C5 counterexample: teardown is not guaranteed on every exit path.  In an
iteration whose terminal write fails (even with a `Quit` pending), the `?`
exit ends the run in `exitedErr`, and `cleanup` — which sits after the loop
at `main.rs` line 320 — does not run. -/
theorem cleanup_skipped_on_error :
    runIters false 500 3 ⟨5, false, 0, ["X"]⟩
      [⟨0, RenderOutcome.bytes (some "0"), true, some Event.Quit⟩] = LoopOutcome.exitedErr ∧
    cleanup_runs LoopOutcome.exitedErr = false :=
  ⟨rfl, rfl⟩

/-- C5 amended: terminal cleanup runs exactly on the `Quit`-triggered `break`
exit of the loop — `cleanup_runs` holds iff the run ended in `exitedQuit` —
and any iteration that observes `Quit` without a renderer error or write
failure does exit the loop there (pending later events unapplied) with the
cleanup running; on error exits via `?`, cleanup is skipped. -/
theorem cleanup_on_quit_only (a : Bool) (rate origin : Nat) (st : LoopState)
    (inputs : List Iter) :
    (cleanup_runs (runIters a rate origin st inputs) = true ↔
      runIters a rate origin st inputs = LoopOutcome.exitedQuit) ∧
    (∀ inp rest, inp.ev = some Event.Quit → inp.write_fails = false →
      inp.render ≠ RenderOutcome.rerr →
      runIters a rate origin st (inp :: rest) = LoopOutcome.exitedQuit ∧
      cleanup_runs (runIters a rate origin st (inp :: rest)) = true) := by
  constructor
  · rcases hE : runIters a rate origin st inputs with st1 | _ | _ <;> simp [cleanup_runs]
  · intro inp rest he hw hr
    obtain ⟨st2, ops, hs⟩ := stepIter_quit a rate origin st inp he hw hr
    constructor
    · simp [runIters, hs]
    · simp [runIters, hs, cleanup_runs]

/-- Witness for C5 (amended): a `Quit` iteration with a pending `Tick` behind
it exits in `exitedQuit` — the pending tick is never applied — and the
cleanup runs. -/
theorem cleanup_on_quit_only_witness :
    runIters false 500 3 ⟨5, false, 0, ["X"]⟩
      [⟨0, RenderOutcome.bytes (some "Y"), false, some Event.Quit⟩,
        ⟨1000, RenderOutcome.bytes (some "Z"), false, some Event.Tick⟩] =
      LoopOutcome.exitedQuit ∧
    cleanup_runs (runIters false 500 3 ⟨5, false, 0, ["X"]⟩
      [⟨0, RenderOutcome.bytes (some "Y"), false, some Event.Quit⟩,
        ⟨1000, RenderOutcome.bytes (some "Z"), false, some Event.Tick⟩]) = true :=
  (cleanup_on_quit_only false 500 3 ⟨5, false, 0, ["X"]⟩ []).2
    ⟨0, RenderOutcome.bytes (some "Y"), false, some Event.Quit⟩
    [⟨1000, RenderOutcome.bytes (some "Z"), false, some Event.Tick⟩] rfl rfl (by decide)

end Afk
